import Mathlib

/-!
Verification of the per-peer Pipe transport (src/msg/Pipe.cc, src/msg/Accepter.cc).

This file gives a shallow embedding of the queue, sequence-number, handshake
arbitration, fault and accept-loop logic of the sources, and proves the frozen
claims about them.  Machine integers (the 64-bit sequence counters) are
modelled as natural numbers with explicit wraparound at 2^64 at each
increment and decrement, exactly where the C++ code performs uint64
arithmetic.  Definitions come first, then the supporting lemmas and the
claim theorems.
-/

set_option autoImplicit false

namespace CephPipe

/-- Modulus of the 64-bit unsigned counters (out_seq, in_seq, ...). -/
def U64MOD : Nat := 2 ^ 64

/-- Post-increment of a uint64 counter (wraps modulo 2^64). -/
def u64inc (n : Nat) : Nat := (n + 1) % U64MOD

/-- Post-decrement of a uint64 counter: wraps to 2^64 - 1 at zero.  For
counter values below 2^64 (the only values a uint64 holds) this agrees
with addition of 2^64 - 1 modulo 2^64, see u64dec_eq_mod. -/
def u64dec (n : Nat) : Nat := if n = 0 then U64MOD - 1 else n - 1

/-- A message: an identity (standing for the Message object) and the
sequence number stored in its header (m.get_seq / m.set_seq). -/
structure Msg where
  id : Nat
  seq : Nat
  deriving DecidableEq, Repr

/-- CEPH_MSG_PRIO_HIGHEST, the priority bucket used for requeued messages. -/
def CEPH_MSG_PRIO_HIGHEST : Nat := 255

/-- Pipe states (Pipe.h STATE_*). -/
inductive PState
  | ACCEPTING
  | CONNECTING
  | OPEN
  | STANDBY
  | WAIT
  | CLOSING
  | CLOSED
  deriving DecidableEq, Repr

/-- The mutable Pipe state touched by the verified operations: the policy
bits (lossy, server, standby), the lifecycle state, the sequence counters,
the priority-indexed outbound queue out_q, the sent list, the delay queue,
the slice of the dispatch queue fed by this pipe (in_q), registry
membership, the connection_state attachment (an identifier conn_state and
the detached flag), and the reconnect backoff.  reset_count counts
queue_reset notifications delivered to the application. -/
structure PipeSt where
  state : PState
  lossy : Bool
  server : Bool
  standby : Bool
  registered : Bool
  socket_open : Bool
  conn_state : Nat
  conn_id : Nat
  connect_seq : Nat
  peer_global_seq : Nat
  in_seq : Nat
  in_seq_acked : Nat
  out_seq : Nat
  out_q : Nat → List Msg
  sent : List Msg
  delay_queue : List Msg
  in_q : List Msg
  detached : Bool
  reset_count : Nat
  backoff : ℚ
  keepalive : Bool
  close_on_empty : Bool

/-- The loop body of Pipe::requeue_sent: while sent is not empty, pop its
back, push that message on the front of the requeue bucket, and decrement
out_seq once.  The first argument is the sent list reversed, so popping
its head is popping the back of sent. -/
def requeueLoopRev : List Msg → List Msg → Nat → List Msg × Nat
  | [], rq, oseq => (rq, oseq)
  | m :: rest, rq, oseq => requeueLoopRev rest (m :: rq) (u64dec oseq)

/-- Pipe::requeue_sent (Pipe.cc 1103-1117): early return when sent is
empty, otherwise run the pop-back/push-front loop on
out_q[CEPH_MSG_PRIO_HIGHEST]. -/
def requeue_sent (st : PipeSt) : PipeSt :=
  if st.sent = [] then st
  else
    let r := requeueLoopRev st.sent.reverse (st.out_q CEPH_MSG_PRIO_HIGHEST) st.out_seq
    { st with out_q := Function.update st.out_q CEPH_MSG_PRIO_HIGHEST r.1
              sent := []
              out_seq := r.2 }

/-- Modelled from the spec: Pipe::_get_next_outgoing is declared in Pipe.h,
which is not among the sources.  Spec §4.3: the writer takes "the head of
the highest-priority non-empty bucket".  Message priorities range over
0..CEPH_MSG_PRIO_HIGHEST. -/
def getNextOutgoing (q : Nat → List Msg) : Option (Msg × (Nat → List Msg)) :=
  match (List.range (CEPH_MSG_PRIO_HIGHEST + 1)).reverse.find? (fun p => !(q p).isEmpty) with
  | none => none
  | some p =>
    match q p with
    | [] => none
    | m :: rest => some (m, Function.update q p rest)

/-- One turn of the writer send path in the OPEN state (Pipe.cc 1508-1516):
pop the next outgoing message, assign m.seq := ++out_seq, and push a second
reference of the message on sent unless the policy is lossy and
close_on_empty is unset. -/
def writerSendOne (st : PipeSt) : Option (PipeSt × Msg) :=
  match getNextOutgoing st.out_q with
  | none => none
  | some x =>
    let oseq := u64inc st.out_seq
    let m := { x.1 with seq := oseq }
    some ({ st with out_q := x.2
                    out_seq := oseq
                    sent := if !st.lossy || st.close_on_empty then st.sent ++ [m] else st.sent },
          m)

/-- Drain up to n messages through the writer send path, collecting them in
the order they are written to the socket. -/
def drainN : Nat → PipeSt → PipeSt × List Msg
  | 0, st => (st, [])
  | n + 1, st =>
    match writerSendOne st with
    | none => (st, [])
    | some x =>
      let r := drainN n x.1
      (r.1, x.2 :: r.2)

/-- The sent-list invariant every reachable pipe maintains: the seqs of
the unacked sent messages are the consecutive run ending at out_seq.  The
writer establishes it by assigning m.seq := ++out_seq as it appends to
sent, handle_ack trims prefixes only, and requeue_sent empties sent; see
sentInv_writerSendOne, sentInv_handle_ack and sentInv_requeue_sent. -/
def SentInv (st : PipeSt) : Prop :=
  st.sent.length ≤ st.out_seq ∧
  st.sent.map Msg.seq = List.range' (st.out_seq + 1 - st.sent.length) st.sent.length

/-- Pipe::discard_requeued_up_to loop (Pipe.cc 1119-1133): pop messages off
the front of the requeue bucket while the front message seq is neither zero
nor greater than seq, incrementing out_seq once per dropped message. -/
def discardLoop : List Msg → Nat → Nat → List Msg × Nat
  | [], oseq, _ => ([], oseq)
  | m :: rest, oseq, seq =>
    if m.seq = 0 ∨ seq < m.seq then (m :: rest, oseq)
    else discardLoop rest (u64inc oseq) seq

/-- Pipe::discard_requeued_up_to (Pipe.cc 1119-1133), on the pipe state. -/
def discard_requeued_up_to (st : PipeSt) (seq : Nat) : PipeSt :=
  let r := discardLoop (st.out_q CEPH_MSG_PRIO_HIGHEST) st.out_seq seq
  { st with out_q := Function.update st.out_q CEPH_MSG_PRIO_HIGHEST r.1
            out_seq := r.2 }

/-- Messages discarded by discard_requeued_up_to: assigned seq in (0, seq]. -/
def droppedPred (seq : Nat) : Msg → Bool := fun m => decide (m.seq ≠ 0 ∧ m.seq ≤ seq)

/-- Outcome of the existing-pipe branch of Pipe::accept.  replaceP b means
goto replace, where b records whether was_session_reset is invoked on the
existing pipe first; waitP means reply WAIT and keep the existing outgoing
pipe alive (the accepting side sends it a keepalive). -/
inductive AcceptDecision where
  | retry_global (gseq : Nat)
  | replaceP (reset_existing : Bool)
  | retry_session (cseq : Nat)
  | waitP
  | reset_session
  deriving DecidableEq, Repr

/-- The fields of a ceph_msg_connect record consulted by the existing-pipe
branch of Pipe::accept. -/
structure ConnectMsg where
  global_seq : Nat
  connect_seq : Nat
  deriving DecidableEq, Repr

/-- The fields of the existing registered pipe consulted by the
existing-pipe branch of Pipe::accept. -/
structure ExistingInfo where
  peer_global_seq : Nat
  connect_seq : Nat
  state : PState
  lossy : Bool
  server : Bool
  deriving DecidableEq, Repr

/-- Decision logic of Pipe::accept when the registry already holds a pipe
for the peer address (Pipe.cc 417-523).  resetcheck is the accepting
policy resetcheck bit.  The total order on peer addresses (entity_addr_t
comparison, declared outside the sources; spec §3 requires a total order
on (address, port, nonce)) is represented by natural-number addresses. -/
def acceptExisting (connect : ConnectMsg) (ex : ExistingInfo)
    (peer_addr my_addr : Nat) (resetcheck : Bool) : AcceptDecision :=
  if connect.global_seq < ex.peer_global_seq then .retry_global ex.peer_global_seq
  else if ex.lossy then .replaceP true
  else if connect.connect_seq = 0 ∧ 0 < ex.connect_seq then .replaceP resetcheck
  else if connect.connect_seq < ex.connect_seq then .retry_session (ex.connect_seq + 1)
  else if connect.connect_seq = ex.connect_seq then
    if ex.state = .OPEN ∨ ex.state = .STANDBY then .retry_session (ex.connect_seq + 1)
    else if peer_addr < my_addr ∨ ex.server = true then .replaceP false
    else .waitP
  else
    if resetcheck = true ∧ ex.connect_seq = 0 then .reset_session
    else .replaceP false

/-- Survival of the outgoing connect attempt of one side in a connect
race.  The side accepting the incoming connect of the peer keeps its own
outgoing attempt exactly when its decision is WAIT: on a replace the
existing outgoing pipe is stopped (Pipe.cc 564), and the peer that reads
the WAIT reply parks its attempt in STATE_WAIT and stops
(Pipe.cc 992-996). -/
def outgoingSurvives (connect : ConnectMsg) (ex : ExistingInfo)
    (peer_addr my_addr : Nat) (resetcheck : Bool) : Bool :=
  decide (acceptExisting connect ex peer_addr my_addr resetcheck = .waitP)

/-- Modelled from the spec: Pipe::_send is declared in Pipe.h, which is not
among the sources.  Spec §2 and §4.3: submission appends the message to the
priority bucket of the outbound queue (tie within a bucket is insertion
order, the writer pops the head). -/
def submitMessage (st : PipeSt) (prio : Nat) (m : Msg) : PipeSt :=
  { st with out_q := Function.update st.out_q prio (st.out_q prio ++ [m]) }

/-- Pipe::stop (Pipe.cc 1286-1294): state := CLOSED and the socket is shut
down. -/
def stop (st : PipeSt) : PipeSt :=
  { st with state := .CLOSED, socket_open := false }

/-- Pipe::unregister_pipe (Pipe.cc 1090-1100), for a registered pipe. -/
def unregister_pipe (st : PipeSt) : PipeSt := { st with registered := false }

/-- The replace step of Pipe::accept (Pipe.cc 558-598), taking the
accepting pipe np and the existing pipe op.  The existing pipe is stopped
and unregistered.  When it is not lossy the accepting pipe additionally
adopts its connection_state, swaps conn_id with it, takes over in_seq
(marking it acked), flushes its delayed messages, runs requeue_sent on it,
adopts the resulting out_seq and splices every bucket of its out_q in
front of the corresponding own bucket (the splice empties the old
buckets).  Returns (accepting pipe, replaced pipe).  replacePrep is the
preparation applied to the existing pipe: stopped, unregistered, delayed
messages flushed to the dispatch queue. -/
def replacePrep (op : PipeSt) : PipeSt :=
  { unregister_pipe (stop op) with
      in_q := (unregister_pipe (stop op)).in_q ++ (unregister_pipe (stop op)).delay_queue
      delay_queue := [] }

def acceptReplace (np op : PipeSt) : PipeSt × PipeSt :=
  if op.lossy then (np, unregister_pipe (stop op))
  else
    let op3 := requeue_sent (replacePrep op)
    ({ np with conn_state := op.conn_state
               conn_id := op.conn_id
               in_seq := op.in_seq
               in_seq_acked := op.in_seq
               out_seq := op3.out_seq
               out_q := fun p => op3.out_q p ++ np.out_q p },
     { op3 with conn_id := np.conn_id, out_q := fun _ => [] })

/-- Modelled from the spec: Pipe::is_queued is declared in Pipe.h, which is
not among the sources.  Spec §4.4 and the STANDBY glossary entry: queued
means the outbound queue is non-empty (priorities range over
0..CEPH_MSG_PRIO_HIGHEST). -/
def isQueued (st : PipeSt) : Bool :=
  !((List.range (CEPH_MSG_PRIO_HIGHEST + 1)).all (fun p => (st.out_q p).isEmpty))

/-- Backoff configuration consumed by Pipe::fault (ms_initial_backoff and
ms_max_backoff), as rational time values. -/
structure FaultConfig where
  initial_backoff : ℚ
  max_backoff : ℚ

/-- Pipe::fault (Pipe.cc 1156-1248).  onread marks a fault reported by the
reader.  Besides the successor state, returns the wait performed on the
condition variable in the backoff branch (none in every other branch). -/
def fault (cfg : FaultConfig) (onread : Bool) (st : PipeSt) : PipeSt × Option ℚ :=
  if onread = true ∧ st.state = PState.CONNECTING then (st, none)
  else if st.state = PState.CLOSED ∨ st.state = PState.CLOSING then (st, none)
  else
    let st1 := { st with socket_open := false }
    if st1.lossy = true ∧ st1.state ≠ PState.CONNECTING then
      ({ st1 with state := PState.CLOSED
                  registered := false
                  in_q := []
                  delay_queue := []
                  out_q := fun _ => []
                  sent := []
                  detached := true
                  reset_count := st1.reset_count + 1 }, none)
    else
      let st2 := { st1 with in_q := st1.in_q ++ st1.delay_queue, delay_queue := [] }
      let st3 := requeue_sent st2
      if st3.standby = true ∧ isQueued st3 = false then
        ({ st3 with state := PState.STANDBY }, none)
      else if st3.state ≠ PState.CONNECTING then
        if st3.server then
          ({ st3 with state := PState.STANDBY, backoff := 0 }, none)
        else
          ({ st3 with state := PState.CONNECTING
                      connect_seq := st3.connect_seq + 1
                      backoff := 0 }, none)
      else if st3.backoff = 0 then
        ({ st3 with backoff := cfg.initial_backoff }, none)
      else
        let nb := st3.backoff + st3.backoff
        ({ st3 with backoff := if cfg.max_backoff < nb then cfg.max_backoff else nb },
         some st3.backoff)

/-- Iterated writer-side faults (onread = false). -/
def faultNth (cfg : FaultConfig) (st : PipeSt) : Nat → PipeSt
  | 0 => st
  | k + 1 => (fault cfg false (faultNth cfg st k)).1

/-- Pipe::handle_ack (Pipe.cc 102-119): trim the acked prefix of sent and,
when that empties sent under close_on_empty, stop the pipe. -/
def handle_ack (st : PipeSt) (seq : Nat) : PipeSt :=
  let sent1 := st.sent.dropWhile (fun m => decide (m.seq ≤ seq))
  let st1 := { st with sent := sent1 }
  if sent1 = [] ∧ st.close_on_empty = true then stop st1 else st1

/-- Handling of a decoded message by Pipe::reader in the tag-MSG branch
(Pipe.cc 1357-1407), without the fault-injection delay thread: messages
arriving in CLOSED or CONNECTING are dropped, stale seqs (≤ in_seq) are
dropped as duplicates, anything else records in_seq := m.seq and is
enqueued on the dispatch queue.  Returns the state and whether the message
was enqueued. -/
def readerHandleMsg (st : PipeSt) (m : Msg) : PipeSt × Bool :=
  if st.state = PState.CLOSED ∨ st.state = PState.CONNECTING then (st, false)
  else if m.seq ≤ st.in_seq then (st, false)
  else ({ st with in_seq := m.seq, in_q := st.in_q ++ [m] }, true)

/-- CEPH_MSG_FOOTER_COMPLETE flag bit. -/
def CEPH_MSG_FOOTER_COMPLETE : Nat := 1

/-- The three throttle counters touched by Pipe::read_message: currently
acquired units of the policy message throttle, the policy byte throttle
and the global dispatch-bytes throttle. -/
structure Throttles where
  msgs : Nat
  bytes : Nat
  dispatch : Nat
  deriving DecidableEq, Repr

/-- Which optional policy throttlers are configured. -/
structure ThrottlePolicy where
  has_throttler_messages : Bool
  has_throttler_bytes : Bool
  deriving DecidableEq, Repr

/-- Throttle acquisition of Pipe::read_message (Pipe.cc 1667-1691): one
unit of the policy message throttle, then message_size units of the policy
byte throttle and of the dispatch throttle when message_size is nonzero. -/
def rmAcquire (pol : ThrottlePolicy) (message_size : Nat) (t : Throttles) : Throttles :=
  let t1 := if pol.has_throttler_messages then { t with msgs := t.msgs + 1 } else t
  if message_size ≠ 0 then
    let t2 := if pol.has_throttler_bytes
      then { t1 with bytes := t1.bytes + message_size } else t1
    { t2 with dispatch := t2.dispatch + message_size }
  else t1

/-- Throttle release on the out_dethrottle path of Pipe::read_message
(Pipe.cc 1833-1851). -/
def rmRelease (pol : ThrottlePolicy) (message_size : Nat) (t : Throttles) : Throttles :=
  let t1 := if pol.has_throttler_messages then { t with msgs := t.msgs - 1 } else t
  if message_size ≠ 0 then
    let t2 := if pol.has_throttler_bytes
      then { t1 with bytes := t1.bytes - message_size } else t1
    { t2 with dispatch := t2.dispatch - message_size }
  else t1

/-- Pipe::read_message from the throttle acquisition to the return
(Pipe.cc 1660-1851), on the path where the header crc matched and every
socket read succeeds: message_size is the front+middle+data length from
the header, footer_flags the footer flag byte, m the message the frame
decodes to, decode_ok whether decoding succeeds, has_security whether a
session_security handler is installed, sig_ok whether the signature check
passes.  Returns (return code, delivered message, throttle counters). -/
def read_message (pol : ThrottlePolicy) (message_size : Nat) (footer_flags : Nat)
    (m : Msg) (decode_ok : Bool) (has_security : Bool) (sig_ok : Bool)
    (t : Throttles) : Int × Option Msg × Throttles :=
  let t1 := rmAcquire pol message_size t
  if footer_flags &&& CEPH_MSG_FOOTER_COMPLETE = 0 then
    (0, none, rmRelease pol message_size t1)
  else if decode_ok = false then (-22, none, rmRelease pol message_size t1)
  else if has_security = true ∧ sig_ok = false then
    (-22, none, rmRelease pol message_size t1)
  else (0, some m, t1)

/-- The reader MSG branch around read_message (Pipe.cc 1352-1363): without
a message, a negative return faults the reader (onread) and a zero return
just continues; with a message the duplicate filter runs.  Returns the
state and whether a message was enqueued. -/
def readerMsgResult (cfg : FaultConfig) (st : PipeSt)
    (r : Int × Option Msg × Throttles) : PipeSt × Bool :=
  match r.2.1 with
  | none => if r.1 < 0 then ((fault cfg true st).1, false) else (st, false)
  | some m => readerHandleMsg st m

/-- The accept part of the Accepter::entry loop (Accepter.cc 196-224):
each poll round yields an accept outcome (true = a socket was accepted and
handed to the messenger).  On success the consecutive error counter resets
to zero; on failure the counter is pre-incremented and the loop breaks
when it exceeds 4.  Returns (number of poll rounds consumed, whether the
loop broke on accept errors). -/
def accepterRun : List Bool → Nat → Nat × Bool
  | [], _ => (0, false)
  | ev :: rest, errors =>
    if ev then
      let r := accepterRun rest 0
      (r.1 + 1, r.2)
    else if 4 < errors + 1 then (1, true)
    else
      let r := accepterRun rest (errors + 1)
      (r.1 + 1, r.2)

/-- A reliable pipe in the OPEN state with two unacked sent messages whose
seqs 1 and 2 end at out_seq = 2, used to instantiate theorems. -/
def stTest : PipeSt where
  state := .OPEN
  lossy := false
  server := false
  standby := false
  registered := true
  socket_open := true
  conn_state := 7
  conn_id := 1
  connect_seq := 1
  peer_global_seq := 1
  in_seq := 0
  in_seq_acked := 0
  out_seq := 2
  out_q := fun _ => []
  sent := [⟨10, 1⟩, ⟨11, 2⟩]
  delay_queue := []
  in_q := []
  detached := false
  reset_count := 0
  backoff := 0
  keepalive := false
  close_on_empty := false

/-- A connecting pipe with zero backoff, used to instantiate theorems. -/
def stConn : PipeSt := { stTest with state := .CONNECTING, sent := [], out_seq := 0 }

/-- A lossy open pipe, used to instantiate theorems. -/
def stLossy : PipeSt := { stTest with lossy := true }

/-- A pipe whose requeue bucket holds seqs 1, 2, then a zero-seq message,
used to instantiate theorems. -/
def stRq : PipeSt :=
  { stTest with
    sent := []
    out_seq := 0
    out_q := fun p => if p = CEPH_MSG_PRIO_HIGHEST
      then [⟨10, 1⟩, ⟨11, 2⟩, ⟨12, 0⟩, ⟨13, 9⟩] else [] }

/-- An accepting pipe, used to instantiate the replace theorems. -/
def npTest : PipeSt :=
  { stTest with state := .ACCEPTING, conn_state := 4, conn_id := 9
                sent := [], in_seq := 0, out_seq := 0, registered := false }

/-- A lossy existing pipe with distinctive conn_id and conn_state. -/
def opLossyT : PipeSt :=
  { stTest with lossy := true, conn_id := 5, conn_state := 3, in_seq := 42 }

/-- A reliable existing pipe with distinctive conn_id and conn_state. -/
def opTest : PipeSt := { stTest with conn_id := 5, conn_state := 3, in_seq := 42 }

/-- A backoff configuration with initial_backoff 1 and max_backoff 5. -/
def cfgTest : FaultConfig := ⟨1, 5⟩

theorem u64dec_eq_mod (n : Nat) (h : n < U64MOD) :
    u64dec n = (n + (U64MOD - 1)) % U64MOD := by
  simp only [u64dec, U64MOD] at *
  split <;> omega

theorem u64inc_eq (n : Nat) (h : n + 1 < U64MOD) : u64inc n = n + 1 := by
  simp only [u64inc]
  exact Nat.mod_eq_of_lt h

theorem u64dec_eq (n : Nat) (h1 : 1 ≤ n) : u64dec n = n - 1 := by
  simp only [u64dec]
  split
  · omega
  · rfl

theorem Msg.eta_seq (m : Msg) : { m with seq := m.seq } = m := rfl

theorem requeueLoopRev_fst (l : List Msg) (rq : List Msg) (oseq : Nat) :
    (requeueLoopRev l rq oseq).1 = l.reverse ++ rq := by
  induction l generalizing rq oseq with
  | nil => rfl
  | cons m rest ih =>
    rw [requeueLoopRev, ih, List.reverse_cons, List.append_assoc, List.singleton_append]

theorem requeueLoopRev_snd (l : List Msg) (rq : List Msg) (oseq : Nat)
    (h1 : l.length ≤ oseq) :
    (requeueLoopRev l rq oseq).2 = oseq - l.length := by
  induction l generalizing rq oseq with
  | nil => simp [requeueLoopRev]
  | cons m rest ih =>
    rw [requeueLoopRev]
    rw [u64dec_eq oseq (by simp at h1; omega)]
    rw [ih (m :: rq) (oseq - 1) (by simp at h1 ⊢; omega)]
    simp
    omega

theorem requeue_sent_out_q (st : PipeSt) :
    (requeue_sent st).out_q CEPH_MSG_PRIO_HIGHEST =
      st.sent ++ st.out_q CEPH_MSG_PRIO_HIGHEST := by
  by_cases h : st.sent = []
  · simp [requeue_sent, h]
  · simp only [requeue_sent, if_neg h]
    rw [Function.update_same]
    rw [requeueLoopRev_fst]
    simp

theorem requeue_sent_out_q_other (st : PipeSt) (p : Nat) (hp : p ≠ CEPH_MSG_PRIO_HIGHEST) :
    (requeue_sent st).out_q p = st.out_q p := by
  by_cases h : st.sent = []
  · simp [requeue_sent, h]
  · simp only [requeue_sent, if_neg h]
    exact Function.update_noteq hp _ _

theorem requeue_sent_out_seq (st : PipeSt)
    (h1 : st.sent.length ≤ st.out_seq) :
    (requeue_sent st).out_seq = st.out_seq - st.sent.length := by
  by_cases h : st.sent = []
  · simp [requeue_sent, h]
  · simp only [requeue_sent, if_neg h]
    rw [requeueLoopRev_snd _ _ _ (by simpa using h1)]
    simp

theorem requeue_sent_sent (st : PipeSt) : (requeue_sent st).sent = [] := by
  by_cases h : st.sent = [] <;> simp [requeue_sent, h]

theorem requeue_sent_state (st : PipeSt) : (requeue_sent st).state = st.state := by
  by_cases h : st.sent = [] <;> simp [requeue_sent, h]

theorem requeue_sent_backoff (st : PipeSt) : (requeue_sent st).backoff = st.backoff := by
  by_cases h : st.sent = [] <;> simp [requeue_sent, h]

theorem requeue_sent_standby (st : PipeSt) : (requeue_sent st).standby = st.standby := by
  by_cases h : st.sent = [] <;> simp [requeue_sent, h]

theorem requeue_sent_server (st : PipeSt) : (requeue_sent st).server = st.server := by
  by_cases h : st.sent = [] <;> simp [requeue_sent, h]

theorem getNextOutgoing_highest (q : Nat → List Msg) (m : Msg) (rest : List Msg)
    (h : q CEPH_MSG_PRIO_HIGHEST = m :: rest) :
    getNextOutgoing q =
      some (m, Function.update q CEPH_MSG_PRIO_HIGHEST rest) := by
  have hrev : (List.range (CEPH_MSG_PRIO_HIGHEST + 1)).reverse =
      CEPH_MSG_PRIO_HIGHEST :: (List.range CEPH_MSG_PRIO_HIGHEST).reverse := by
    rw [List.range_succ]
    simp
  have hfind : List.find? (fun p => !(q p).isEmpty)
      (CEPH_MSG_PRIO_HIGHEST :: (List.range CEPH_MSG_PRIO_HIGHEST).reverse) =
      some CEPH_MSG_PRIO_HIGHEST := by
    simp [List.find?, h]
  unfold getNextOutgoing
  rw [hrev, hfind]
  simp [h]

theorem writerSendOne_highest (st : PipeSt) (m : Msg) (rest : List Msg)
    (hq : st.out_q CEPH_MSG_PRIO_HIGHEST = m :: rest)
    (hm : m.seq = u64inc st.out_seq) :
    writerSendOne st = some
      ({ st with out_q := Function.update st.out_q CEPH_MSG_PRIO_HIGHEST rest
                 out_seq := u64inc st.out_seq
                 sent := if !st.lossy || st.close_on_empty
                   then st.sent ++ [m] else st.sent }, m) := by
  have heta : ({ m with seq := u64inc st.out_seq } : Msg) = m := by
    rw [← hm]
  simp only [writerSendOne, getNextOutgoing_highest st.out_q m rest hq, heta]

theorem drainN_succ (n : Nat) (st stN : PipeSt) (m : Msg)
    (h : writerSendOne st = some (stN, m)) :
    drainN (n + 1) st = ((drainN n stN).1, m :: (drainN n stN).2) := by
  rw [drainN, h]

theorem drainN_assigns (S : List Msg) : ∀ (R : List Msg) (st : PipeSt),
    st.out_q CEPH_MSG_PRIO_HIGHEST = S ++ R →
    st.out_seq + S.length < U64MOD →
    S.map Msg.seq = List.range' (st.out_seq + 1) S.length →
    (drainN S.length st).2 = S := by
  induction S with
  | nil => intro R st _ _ _; rfl
  | cons m S' ih =>
    intro R st hq hb hs
    have hq' : st.out_q CEPH_MSG_PRIO_HIGHEST = m :: (S' ++ R) := by simpa using hq
    rw [List.map_cons, List.length_cons, List.range'_succ, List.cons.injEq] at hs
    have hinc : u64inc st.out_seq = st.out_seq + 1 := by
      apply u64inc_eq
      simp at hb
      omega
    have hw := writerSendOne_highest st m (S' ++ R) hq' (by rw [hinc]; exact hs.1)
    rw [List.length_cons, drainN_succ S'.length st _ m hw]
    show m :: (drainN S'.length _).2 = m :: S'
    congr 1
    apply ih R
    · simp
    · show u64inc st.out_seq + S'.length < U64MOD
      rw [hinc]
      simp at hb
      omega
    · show S'.map Msg.seq = List.range' (u64inc st.out_seq + 1) S'.length
      rw [hinc]
      exact hs.2

theorem discardLoop_spec (seq : Nat) : ∀ (rq : List Msg) (oseq : Nat),
    oseq + (rq.takeWhile (droppedPred seq)).length < U64MOD →
    discardLoop rq oseq seq =
      (rq.dropWhile (droppedPred seq),
       oseq + (rq.takeWhile (droppedPred seq)).length) := by
  intro rq
  induction rq with
  | nil => intro oseq _; simp [discardLoop]
  | cons m rest ih =>
    intro oseq hb
    by_cases hc : m.seq = 0 ∨ seq < m.seq
    · have hp : droppedPred seq m = false := by
        simp only [droppedPred, decide_eq_false_iff_not]
        omega
      rw [discardLoop, if_pos hc, List.dropWhile_cons, List.takeWhile_cons, hp]
      simp
    · have hp : droppedPred seq m = true := by
        simp only [droppedPred, decide_eq_true_eq]
        omega
      have hb' : oseq + 1 + (rest.takeWhile (droppedPred seq)).length < U64MOD := by
        rw [List.takeWhile_cons, hp] at hb
        simp at hb
        omega
      have hinc : u64inc oseq = oseq + 1 := u64inc_eq _ (by omega)
      rw [discardLoop, if_neg hc, hinc, ih (oseq + 1) hb']
      rw [List.dropWhile_cons, List.takeWhile_cons, hp]
      simp
      omega

/-- C10: a fault reported by the reader (onread = true) while the pipe is
in state CONNECTING is a no-op: fault returns before shutting down the
socket, so the whole pipe state — state, backoff, out_q, sent, socket —
is unchanged and no wait is performed, leaving the in-progress connect
attempt of the writer undisturbed. -/
theorem C10_fault_onread_connecting (cfg : FaultConfig) (st : PipeSt)
    (h : st.state = PState.CONNECTING) :
    fault cfg true st = (st, none) := by
  simp [fault, h]

theorem C10_fault_onread_connecting_witness :
    stConn.state = PState.CONNECTING ∧ fault cfgTest true stConn = (stConn, none) :=
  ⟨rfl, C10_fault_onread_connecting cfgTest stConn rfl⟩

/-- C5: a fault on a lossy pipe outside CONNECTING (and not already CLOSED
or CLOSING) is terminal: the pipe is stopped (state CLOSED), its registry
entry is removed, the delay queue, out queue, sent list and its slice of
the dispatch queue are discarded, it is detached from connection_state,
exactly one reset is dispatched to the application, and no wait or
reconnection happens (the state is the terminal CLOSED). -/
theorem C5_lossy_fault_terminal (cfg : FaultConfig) (onread : Bool) (st : PipeSt)
    (h1 : st.lossy = true) (h2 : st.state ≠ PState.CONNECTING)
    (h3 : st.state ≠ PState.CLOSED) (h4 : st.state ≠ PState.CLOSING) :
    (fault cfg onread st).1.state = PState.CLOSED ∧
    (fault cfg onread st).1.registered = false ∧
    (fault cfg onread st).1.delay_queue = [] ∧
    (∀ p, (fault cfg onread st).1.out_q p = []) ∧
    (fault cfg onread st).1.sent = [] ∧
    (fault cfg onread st).1.in_q = [] ∧
    (fault cfg onread st).1.detached = true ∧
    (fault cfg onread st).1.reset_count = st.reset_count + 1 ∧
    (fault cfg onread st).2 = none := by
  simp [fault, h1, h2, h3, h4]

theorem C5_lossy_fault_terminal_witness :
    (stLossy.lossy = true ∧ stLossy.state ≠ PState.CONNECTING ∧
      stLossy.state ≠ PState.CLOSED ∧ stLossy.state ≠ PState.CLOSING) ∧
    (fault cfgTest false stLossy).1.state = PState.CLOSED ∧
    (fault cfgTest false stLossy).1.reset_count = stLossy.reset_count + 1 :=
  ⟨⟨rfl, by decide, by decide, by decide⟩,
   (C5_lossy_fault_terminal cfgTest false stLossy rfl (by decide) (by decide) (by decide)).1,
   (C5_lossy_fault_terminal cfgTest false stLossy rfl (by decide) (by decide)
     (by decide)).2.2.2.2.2.2.2.1⟩

/-- C4: a message received by the reader in the OPEN state with
seq ≤ in_seq is discarded as a duplicate — not enqueued, in_seq
unchanged — while a message with seq > in_seq sets in_seq := m.seq and is
enqueued; consequently in_seq never decreases across the reader message
handling, and handle_ack leaves in_seq untouched as well. -/
theorem C4_duplicate_suppression (st : PipeSt) (m : Msg) (a : Nat)
    (h : st.state = PState.OPEN) :
    (m.seq ≤ st.in_seq → readerHandleMsg st m = (st, false)) ∧
    (st.in_seq < m.seq →
      readerHandleMsg st m = ({ st with in_seq := m.seq, in_q := st.in_q ++ [m] }, true)) ∧
    st.in_seq ≤ (readerHandleMsg st m).1.in_seq ∧
    (handle_ack st a).in_seq = st.in_seq := by
  have hns : ¬(st.state = PState.CLOSED ∨ st.state = PState.CONNECTING) := by
    simp [h]
  refine ⟨?_, ?_, ?_, ?_⟩
  · intro hd
    simp [readerHandleMsg, hns, hd]
  · intro hf
    have hd : ¬(m.seq ≤ st.in_seq) := by omega
    simp [readerHandleMsg, hns, hd]
  · by_cases hd : m.seq ≤ st.in_seq
    · simp [readerHandleMsg, hns, hd]
    · simp only [readerHandleMsg, if_neg hns, if_neg hd]
      have : st.in_seq < m.seq := by omega
      omega
  · simp only [handle_ack]
    split <;> simp [stop]

theorem C4_duplicate_suppression_witness :
    (stTest.state = PState.OPEN ∧ (⟨20, 0⟩ : Msg).seq ≤ stTest.in_seq) ∧
    readerHandleMsg stTest ⟨20, 0⟩ = (stTest, false) :=
  ⟨⟨rfl, by decide⟩, (C4_duplicate_suppression stTest ⟨20, 0⟩ 0 rfl).1 (by decide)⟩

/-- C7: an inbound message whose footer lacks the COMPLETE flag is treated
as aborted: read_message releases every throttle unit it acquired (policy
message throttle, policy byte throttle, global dispatch throttle), returns
success (0) with no message, and the reader thereupon leaves the pipe
state — in particular in_seq and the dispatch queue — unchanged. -/
theorem C7_aborted_releases_throttles (pol : ThrottlePolicy)
    (message_size footer_flags : Nat) (m : Msg) (dok hsec sok : Bool)
    (t : Throttles) (cfg : FaultConfig) (st : PipeSt)
    (h : footer_flags &&& CEPH_MSG_FOOTER_COMPLETE = 0) :
    read_message pol message_size footer_flags m dok hsec sok t = (0, none, t) ∧
    readerMsgResult cfg st
      (read_message pol message_size footer_flags m dok hsec sok t) = (st, false) := by
  have hrel : rmRelease pol message_size (rmAcquire pol message_size t) = t := by
    rcases pol with ⟨pm, pb⟩
    rcases t with ⟨x, y, z⟩
    by_cases h0 : message_size = 0 <;> cases pm <;> cases pb <;>
      simp [rmAcquire, rmRelease, h0]
  have h1 : read_message pol message_size footer_flags m dok hsec sok t = (0, none, t) := by
    simp [read_message, h, hrel]
  refine ⟨h1, ?_⟩
  rw [h1]
  simp [readerMsgResult]

theorem C7_aborted_releases_throttles_witness :
    ((0 : Nat) &&& CEPH_MSG_FOOTER_COMPLETE = 0) ∧
    read_message ⟨true, true⟩ 10 0 ⟨1, 1⟩ true false true ⟨0, 0, 0⟩ =
      (0, none, (⟨0, 0, 0⟩ : Throttles)) :=
  ⟨by decide, (C7_aborted_releases_throttles ⟨true, true⟩ 10 0 ⟨1, 1⟩ true false true
    ⟨0, 0, 0⟩ cfgTest stTest (by decide)).1⟩

/-- C9 counterexample: four consecutive accept failures do NOT terminate
the accepter loop (the break condition is ++errors > 4, reached only at
the fifth consecutive failure): the loop consumes four failures without
breaking and still processes a following successful accept. -/
theorem C9_counterexample :
    (accepterRun (List.replicate 4 false) 0).2 = false ∧
    accepterRun (List.replicate 4 false ++ [true]) 0 = (5, false) := by
  decide

/-- C9 amended: the consecutive-failure counter is reset to zero on each
successful accept, and five (not four) consecutive accept failures
terminate the accept loop; four consecutive failures leave it running. -/
theorem C9_accept_failures (evs : List Bool) (errors : Nat) :
    accepterRun (true :: evs) errors =
      ((accepterRun evs 0).1 + 1, (accepterRun evs 0).2) ∧
    accepterRun (List.replicate 5 false) 0 = (5, true) ∧
    (accepterRun (List.replicate 4 false) 0).2 = false := by
  refine ⟨?_, by decide, by decide⟩
  rw [accepterRun]
  simp

theorem acceptExisting_race (g pg c peer my : Nat) (srv : Bool) (rc : Bool)
    (hg : pg ≤ g) :
    acceptExisting ⟨g, c⟩ ⟨pg, c, PState.CONNECTING, false, srv⟩ peer my rc =
      if peer < my ∨ srv = true then .replaceP false else .waitP := by
  have h1 : ¬ (g < pg) := by omega
  have h2 : ¬ (c = 0 ∧ 0 < c) := by omega
  have h3 : ¬ (c < c) := by omega
  simp [acceptExisting, h1, h2, h3]

/-- C1 counterexample: in the symmetric connect race between addresses 1
and 2 (equal connect_seq, both existing outgoing attempts CONNECTING,
non-lossy, no server policy), the side with the SMALLER address 1 keeps
its outgoing attempt (its accept decision on the incoming connect from 2
is WAIT) while the side with the GREATER address 2 replaces its outgoing
attempt — so the surviving outgoing attempt belongs to the smaller
address, contradicting the claim that the survivor is the side with the
greater address. -/
theorem C1_counterexample :
    outgoingSurvives ⟨1, 1⟩ ⟨1, 1, PState.CONNECTING, false, false⟩ 2 1 false = true ∧
    outgoingSurvives ⟨1, 1⟩ ⟨1, 1, PState.CONNECTING, false, false⟩ 1 2 false = false := by
  decide

/-- C1 amended: in a simultaneous connect race between distinct addresses
a < b with equal connect_seq on non-lossy policies, the accepting-side
rule is: replace the existing outgoing attempt when peer_addr < my_addr
or existing.policy.server, otherwise reply WAIT and keep the existing
outgoing pipe.  Hence the outgoing attempt of the SMALLER side a survives
iff a does not have the server bit, and the outgoing attempt of the
greater side b never survives: exactly one outgoing attempt survives —
the smaller side — unless the smaller side has the server policy bit, in
which case the incoming connection wins on both sides and neither
outgoing attempt survives. -/
theorem C1_race_smaller_survives (a b ga gb pga pgb c : Nat) (sa sb : Bool)
    (rca rcb : Bool) (hab : a < b) (hga : pgb ≤ ga) (hgb : pga ≤ gb) :
    outgoingSurvives ⟨gb, c⟩ ⟨pga, c, PState.CONNECTING, false, sa⟩ b a rca = !sa ∧
    outgoingSurvives ⟨ga, c⟩ ⟨pgb, c, PState.CONNECTING, false, sb⟩ a b rcb = false ∧
    acceptExisting ⟨gb, c⟩ ⟨pga, c, PState.CONNECTING, false, sa⟩ b a rca =
      (if b < a ∨ sa = true then .replaceP false else .waitP) ∧
    acceptExisting ⟨ga, c⟩ ⟨pgb, c, PState.CONNECTING, false, sb⟩ a b rcb =
      (if a < b ∨ sb = true then .replaceP false else .waitP) := by
  have hA := acceptExisting_race gb pga c b a sa rca hgb
  have hB := acceptExisting_race ga pgb c a b sb rcb hga
  have hba : ¬ (b < a) := by omega
  refine ⟨?_, ?_, hA, hB⟩
  · cases sa <;> simp [outgoingSurvives, hA, hba]
  · simp [outgoingSurvives, hB, hab]

theorem C1_race_smaller_survives_witness :
    ((1 : Nat) < 2 ∧ (1 : Nat) ≤ 1 ∧ (1 : Nat) ≤ 1) ∧
    outgoingSurvives ⟨1, 1⟩ ⟨1, 1, PState.CONNECTING, false, true⟩ 2 1 false = !true :=
  ⟨⟨by decide, by decide, by decide⟩,
   (C1_race_smaller_survives 1 2 1 1 1 1 1 true false false false
     (by decide) (by decide) (by decide)).1⟩

/-- C2: on a pipe whose sent-list seqs form the consecutive run ending at
out_seq (the state every reachable pipe is in: the writer assigns
m.seq := ++out_seq as it appends to sent, and handle_ack only trims
prefixes), requeue_sent moves all n sent messages to the front of
out_q[PRIO_HIGHEST] preserving their order and decrements out_seq by n,
and the next n messages drained by the writer are exactly the original
messages with their original seq assignments in the original order. -/
theorem C2_requeue_sent_replays (st : PipeSt)
    (hn : st.sent.length ≤ st.out_seq)
    (hbound : st.out_seq < U64MOD)
    (hseq : st.sent.map Msg.seq =
      List.range' (st.out_seq + 1 - st.sent.length) st.sent.length) :
    (requeue_sent st).out_q CEPH_MSG_PRIO_HIGHEST =
      st.sent ++ st.out_q CEPH_MSG_PRIO_HIGHEST ∧
    (requeue_sent st).out_seq = st.out_seq - st.sent.length ∧
    (drainN st.sent.length (requeue_sent st)).2 = st.sent := by
  refine ⟨requeue_sent_out_q st, requeue_sent_out_seq st hn, ?_⟩
  apply drainN_assigns st.sent (st.out_q CEPH_MSG_PRIO_HIGHEST)
  · exact requeue_sent_out_q st
  · rw [requeue_sent_out_seq st hn]
    omega
  · rw [requeue_sent_out_seq st hn]
    have harith : st.out_seq - st.sent.length + 1 = st.out_seq + 1 - st.sent.length := by
      omega
    rw [harith]
    exact hseq

theorem C2_requeue_sent_replays_witness :
    (stTest.sent.length ≤ stTest.out_seq ∧ stTest.out_seq < U64MOD ∧
      stTest.sent.map Msg.seq =
        List.range' (stTest.out_seq + 1 - stTest.sent.length) stTest.sent.length) ∧
    (drainN stTest.sent.length (requeue_sent stTest)).2 = stTest.sent :=
  ⟨⟨by decide, by decide, by decide⟩,
   (C2_requeue_sent_replays stTest (by decide) (by decide) (by decide)).2.2⟩

/-- C8: discard_requeued_up_to(seq) drops messages from the front of
out_q[PRIO_HIGHEST] exactly while the front message seq lies in (0, seq],
incrementing out_seq once per dropped message; the first front message
with seq 0 or seq greater than the bound stops the scan and is preserved
together with everything behind it, and every other priority bucket is
untouched. -/
theorem C8_discard_requeued_up_to (st : PipeSt) (seq : Nat)
    (hb : st.out_seq +
      ((st.out_q CEPH_MSG_PRIO_HIGHEST).takeWhile (droppedPred seq)).length < U64MOD) :
    (discard_requeued_up_to st seq).out_q CEPH_MSG_PRIO_HIGHEST =
      (st.out_q CEPH_MSG_PRIO_HIGHEST).dropWhile (droppedPred seq) ∧
    (discard_requeued_up_to st seq).out_seq =
      st.out_seq + ((st.out_q CEPH_MSG_PRIO_HIGHEST).takeWhile (droppedPred seq)).length ∧
    ∀ p, p ≠ CEPH_MSG_PRIO_HIGHEST →
      (discard_requeued_up_to st seq).out_q p = st.out_q p := by
  have hl := discardLoop_spec seq (st.out_q CEPH_MSG_PRIO_HIGHEST) st.out_seq hb
  refine ⟨?_, ?_, ?_⟩
  · simp [discard_requeued_up_to, hl, Function.update_same]
  · simp [discard_requeued_up_to, hl]
  · intro p hp
    simp [discard_requeued_up_to, hl, Function.update_noteq hp]

theorem C8_discard_requeued_up_to_witness :
    (stRq.out_seq +
      ((stRq.out_q CEPH_MSG_PRIO_HIGHEST).takeWhile (droppedPred 5)).length < U64MOD) ∧
    (discard_requeued_up_to stRq 5).out_seq =
      stRq.out_seq + ((stRq.out_q CEPH_MSG_PRIO_HIGHEST).takeWhile (droppedPred 5)).length ∧
    (discard_requeued_up_to stRq 5).out_q 3 = stRq.out_q 3 :=
  ⟨by decide, (C8_discard_requeued_up_to stRq 5 (by decide)).2.1,
   (C8_discard_requeued_up_to stRq 5 (by decide)).2.2 3 (by decide)⟩

theorem requeue_sent_registered (st : PipeSt) :
    (requeue_sent st).registered = st.registered := by
  by_cases h : st.sent = [] <;> simp [requeue_sent, h]

theorem replacePrep_sent (op : PipeSt) : (replacePrep op).sent = op.sent := rfl

theorem replacePrep_out_q (op : PipeSt) : (replacePrep op).out_q = op.out_q := rfl

theorem replacePrep_out_seq (op : PipeSt) : (replacePrep op).out_seq = op.out_seq := rfl

theorem replacePrep_state (op : PipeSt) : (replacePrep op).state = PState.CLOSED := rfl

theorem replacePrep_registered (op : PipeSt) : (replacePrep op).registered = false := rfl

/-- C3 counterexample: when the existing pipe being replaced is lossy (the
lossy-replace branch of accept, Pipe.cc 430-435 reaching the replace label
with existing.policy.lossy set), the accepting pipe does NOT adopt
conn_id, connection_state, in_seq or the queues: with existing conn_id 5
and conn_state 3 against accepting conn_id 9 and conn_state 4, the
accepting pipe keeps 9 and 4 after the replace, so the claimed
unconditional adoption fails. -/
theorem C3_counterexample :
    acceptExisting ⟨1, 1⟩ ⟨1, 1, PState.OPEN, true, false⟩ 1 2 false = .replaceP true ∧
    (acceptReplace npTest opLossyT).1.conn_id = 9 ∧
    opLossyT.conn_id = 5 ∧
    (acceptReplace npTest opLossyT).1.conn_state = 4 ∧
    opLossyT.conn_state = 3 ∧
    (acceptReplace npTest opLossyT).1.in_seq ≠ opLossyT.in_seq := by
  refine ⟨by decide, ?_, by decide, ?_, by decide, ?_⟩ <;>
    simp [acceptReplace, npTest, opLossyT, stTest]

/-- C3 amended: for a replace of a NON-lossy existing pipe the accepting
pipe adopts the existing connection_state, conn_id (swapping its own to
the old pipe), in_seq (marked acked), and — through requeue_sent — the
out_seq decremented by the number of unacked sent messages, with the old
sent messages at the head of out_q[PRIO_HIGHEST] in their original order,
followed by the rest of the old bucket and then any messages already
queued on the accepting pipe; every other bucket is the old bucket in
front of the corresponding new bucket; newly submitted messages go behind
all of them; and the old pipe ends stopped (CLOSED) and unregistered.
For a lossy existing pipe only the stop and unregister happen. -/
theorem C3_replace_adopts (np op : PipeSt)
    (hl : op.lossy = false) (hn : op.sent.length ≤ op.out_seq) :
    ((acceptReplace np op).1.conn_state = op.conn_state) ∧
    ((acceptReplace np op).1.conn_id = op.conn_id) ∧
    ((acceptReplace np op).2.conn_id = np.conn_id) ∧
    ((acceptReplace np op).1.in_seq = op.in_seq) ∧
    ((acceptReplace np op).1.in_seq_acked = op.in_seq) ∧
    ((acceptReplace np op).1.out_seq = op.out_seq - op.sent.length) ∧
    ((acceptReplace np op).1.out_q CEPH_MSG_PRIO_HIGHEST =
       op.sent ++ (op.out_q CEPH_MSG_PRIO_HIGHEST ++ np.out_q CEPH_MSG_PRIO_HIGHEST)) ∧
    (∀ p, p ≠ CEPH_MSG_PRIO_HIGHEST →
       (acceptReplace np op).1.out_q p = op.out_q p ++ np.out_q p) ∧
    ((acceptReplace np op).2.state = PState.CLOSED) ∧
    ((acceptReplace np op).2.registered = false) ∧
    (∀ m, (submitMessage (acceptReplace np op).1 CEPH_MSG_PRIO_HIGHEST m).out_q
        CEPH_MSG_PRIO_HIGHEST =
      (op.sent ++ (op.out_q CEPH_MSG_PRIO_HIGHEST ++ np.out_q CEPH_MSG_PRIO_HIGHEST)) ++ [m]) := by
  have hn2 : (replacePrep op).sent.length ≤ (replacePrep op).out_seq := by
    rw [replacePrep_sent, replacePrep_out_seq]
    exact hn
  have hq255 : (acceptReplace np op).1.out_q CEPH_MSG_PRIO_HIGHEST =
      op.sent ++ (op.out_q CEPH_MSG_PRIO_HIGHEST ++ np.out_q CEPH_MSG_PRIO_HIGHEST) := by
    simp only [acceptReplace, hl]
    rw [if_neg (by simp)]
    show (requeue_sent (replacePrep op)).out_q CEPH_MSG_PRIO_HIGHEST ++
        np.out_q CEPH_MSG_PRIO_HIGHEST = _
    rw [requeue_sent_out_q, replacePrep_sent, replacePrep_out_q, List.append_assoc]
  refine ⟨?_, ?_, ?_, ?_, ?_, ?_, hq255, ?_, ?_, ?_, ?_⟩
  · simp [acceptReplace, hl]
  · simp [acceptReplace, hl]
  · simp [acceptReplace, hl]
  · simp [acceptReplace, hl]
  · simp [acceptReplace, hl]
  · simp only [acceptReplace, hl]
    rw [if_neg (by simp)]
    show (requeue_sent (replacePrep op)).out_seq = _
    rw [requeue_sent_out_seq _ hn2, replacePrep_sent, replacePrep_out_seq]
  · intro p hp
    simp only [acceptReplace, hl]
    rw [if_neg (by simp)]
    show (requeue_sent (replacePrep op)).out_q p ++ np.out_q p = _
    rw [requeue_sent_out_q_other _ p hp, replacePrep_out_q]
  · simp only [acceptReplace, hl]
    rw [if_neg (by simp)]
    show (requeue_sent (replacePrep op)).state = _
    rw [requeue_sent_state, replacePrep_state]
  · simp only [acceptReplace, hl]
    rw [if_neg (by simp)]
    show (requeue_sent (replacePrep op)).registered = _
    rw [requeue_sent_registered, replacePrep_registered]
  · intro m
    show Function.update ((acceptReplace np op).1.out_q) CEPH_MSG_PRIO_HIGHEST
        ((acceptReplace np op).1.out_q CEPH_MSG_PRIO_HIGHEST ++ [m]) CEPH_MSG_PRIO_HIGHEST = _
    rw [Function.update_same, hq255]

theorem C3_replace_adopts_witness :
    (opTest.lossy = false ∧ opTest.sent.length ≤ opTest.out_seq) ∧
    (acceptReplace npTest opTest).1.conn_id = opTest.conn_id ∧
    (acceptReplace npTest opTest).1.in_seq = opTest.in_seq :=
  ⟨⟨rfl, by decide⟩, (C3_replace_adopts npTest opTest rfl (by decide)).2.1,
   (C3_replace_adopts npTest opTest rfl (by decide)).2.2.2.1⟩

theorem sentInv_empty (st : PipeSt) (h : st.sent = []) : SentInv st := by
  simp [SentInv, h]

theorem sentInv_requeue_sent (st : PipeSt) : SentInv (requeue_sent st) :=
  sentInv_empty _ (requeue_sent_sent st)

theorem sentInv_writerSendOne (st : PipeSt) (x : PipeSt × Msg)
    (hinv : SentInv st) (hb : st.out_seq + 1 < U64MOD)
    (hl : st.lossy = false) (h : writerSendOne st = some x) :
    SentInv x.1 := by
  obtain ⟨hn, hs⟩ := hinv
  rw [writerSendOne] at h
  cases hg : getNextOutgoing st.out_q with
  | none =>
    rw [hg] at h
    exact absurd h (by simp)
  | some y =>
    rw [hg] at h
    simp only [Option.some.injEq] at h
    subst h
    have hinc : u64inc st.out_seq = st.out_seq + 1 := u64inc_eq _ hb
    constructor
    · show (if !st.lossy || st.close_on_empty
          then st.sent ++ [{ y.1 with seq := u64inc st.out_seq }]
          else st.sent).length ≤ u64inc st.out_seq
      rw [hl, hinc]
      simp
      omega
    · show (if !st.lossy || st.close_on_empty
          then st.sent ++ [{ y.1 with seq := u64inc st.out_seq }]
          else st.sent).map Msg.seq = _
      rw [hl, hinc]
      simp only [Bool.not_false, Bool.true_or, if_pos]
      rw [List.map_append, List.length_append, hs]
      simp only [List.map_cons, List.map_nil, List.length_cons, List.length_nil]
      rw [show st.out_seq + 1 + 1 - (st.sent.length + 0 + 1) =
        st.out_seq + 1 - st.sent.length by omega]
      rw [show st.sent.length + 0 + 1 = st.sent.length + 1 by omega]
      rw [List.range'_concat]
      congr 1
      rw [show st.out_seq + 1 - st.sent.length + 1 * st.sent.length =
        st.out_seq + 1 by omega]

theorem dropWhile_range_suffix (p : Msg → Bool) (s : Nat) : ∀ (l : List Msg),
    l.length ≤ s →
    l.map Msg.seq = List.range' (s + 1 - l.length) l.length →
    (l.dropWhile p).length ≤ s ∧
    (l.dropWhile p).map Msg.seq =
      List.range' (s + 1 - (l.dropWhile p).length) (l.dropWhile p).length := by
  intro l
  induction l with
  | nil =>
    intro h1 h2
    simp [List.dropWhile]
  | cons m rest ih =>
    intro h1 h2
    rw [List.length_cons] at h1
    rw [List.map_cons, List.length_cons,
      show s + 1 - (rest.length + 1) = s - rest.length by omega,
      List.range'_succ, List.cons.injEq] at h2
    rw [List.dropWhile_cons]
    by_cases hp : p m = true
    · rw [if_pos hp]
      apply ih
      · omega
      · rw [h2.2]
        congr 1
        omega
    · rw [if_neg hp]
      refine ⟨by simp; omega, ?_⟩
      rw [List.map_cons, List.length_cons,
        show s + 1 - (rest.length + 1) = s - rest.length by omega,
        List.range'_succ, List.cons.injEq]
      exact ⟨h2.1, by rw [h2.2]⟩

theorem sentInv_handle_ack (st : PipeSt) (a : Nat) (hinv : SentInv st) :
    SentInv (handle_ack st a) := by
  obtain ⟨hn, hs⟩ := hinv
  have hd := dropWhile_range_suffix (fun m => decide (m.seq ≤ a)) st.out_seq st.sent hn hs
  simp only [handle_ack]
  split
  · exact ⟨hd.1, hd.2⟩
  · exact ⟨hd.1, hd.2⟩

theorem fault_connecting_step (cfg : FaultConfig) (st : PipeSt)
    (h1 : st.state = PState.CONNECTING) (h2 : st.standby = false) :
    (fault cfg false st).1.state = PState.CONNECTING ∧
    (fault cfg false st).1.standby = false ∧
    ((fault cfg false st).1.backoff =
      if st.backoff = 0 then cfg.initial_backoff
      else if cfg.max_backoff < st.backoff + st.backoff then cfg.max_backoff
      else st.backoff + st.backoff) ∧
    ((fault cfg false st).2 = if st.backoff = 0 then none else some st.backoff) := by
  by_cases hb : st.backoff = 0 <;>
    simp [fault, h1, h2, hb, requeue_sent_state, requeue_sent_standby,
      requeue_sent_backoff]

theorem faultNth_backoff (cfg : FaultConfig) (st : PipeSt)
    (h1 : st.state = PState.CONNECTING) (h2 : st.standby = false)
    (h3 : st.backoff = 0) (hc1 : 0 < cfg.initial_backoff)
    (hc2 : cfg.initial_backoff ≤ cfg.max_backoff) : ∀ k : Nat,
    (faultNth cfg st (k + 1)).state = PState.CONNECTING ∧
    (faultNth cfg st (k + 1)).standby = false ∧
    (faultNth cfg st (k + 1)).backoff =
      min (2 ^ k * cfg.initial_backoff) cfg.max_backoff := by
  intro k
  induction k with
  | zero =>
    have hstep := fault_connecting_step cfg st h1 h2
    refine ⟨hstep.1, hstep.2.1, ?_⟩
    have hbo := hstep.2.2.1
    rw [if_pos h3] at hbo
    show (fault cfg false st).1.backoff = _
    rw [hbo, pow_zero, one_mul, min_eq_left hc2]
  | succ n ihn =>
    obtain ⟨hs1, hs2, hs3⟩ := ihn
    have hstep := fault_connecting_step cfg (faultNth cfg st (n + 1)) hs1 hs2
    have hmaxpos : 0 < cfg.max_backoff := lt_of_lt_of_le hc1 hc2
    have hppos : 0 < 2 ^ n * cfg.initial_backoff := by positivity
    have hpos : 0 < (faultNth cfg st (n + 1)).backoff := by
      rw [hs3]
      exact lt_min hppos hmaxpos
    have hnz : (faultNth cfg st (n + 1)).backoff ≠ 0 := ne_of_gt hpos
    refine ⟨hstep.1, hstep.2.1, ?_⟩
    have hbo := hstep.2.2.1
    rw [if_neg hnz, hs3] at hbo
    show (fault cfg false (faultNth cfg st (n + 1))).1.backoff = _
    rw [hbo]
    have hsum : 2 ^ n * cfg.initial_backoff + 2 ^ n * cfg.initial_backoff =
        2 ^ (n + 1) * cfg.initial_backoff := by
      ring
    rcases le_or_lt (2 ^ n * cfg.initial_backoff) cfg.max_backoff with hle | hlt
    · rw [min_eq_left hle]
      rcases le_or_lt (2 ^ (n + 1) * cfg.initial_backoff) cfg.max_backoff with hle2 | hlt2
      · rw [min_eq_left hle2, if_neg (by rw [hsum]; exact not_lt.mpr hle2), hsum]
      · rw [min_eq_right (le_of_lt hlt2), if_pos (by rw [hsum]; exact hlt2)]
    · rw [min_eq_right (le_of_lt hlt)]
      have hge : cfg.max_backoff ≤ 2 ^ (n + 1) * cfg.initial_backoff := by
        rw [← hsum]
        linarith
      rw [min_eq_right hge, if_pos (by linarith)]

/-- C6: for consecutive faults taken in state CONNECTING (configuration
with 0 < initial_backoff ≤ max_backoff, standby policy off), the first
fault performs no wait and sets backoff to initial_backoff; fault number
k+2 waits up to the current backoff min(2^k initial, max) and then
doubles and clamps it — so the waits form a doubling sequence and the
backoff never exceeds max_backoff. -/
theorem C6_backoff_doubling (cfg : FaultConfig) (st : PipeSt)
    (h1 : st.state = PState.CONNECTING) (h2 : st.standby = false)
    (h3 : st.backoff = 0) (hc1 : 0 < cfg.initial_backoff)
    (hc2 : cfg.initial_backoff ≤ cfg.max_backoff) (k : Nat) :
    (fault cfg false st).2 = none ∧
    (faultNth cfg st (k + 1)).state = PState.CONNECTING ∧
    (faultNth cfg st (k + 1)).backoff =
      min (2 ^ k * cfg.initial_backoff) cfg.max_backoff ∧
    (faultNth cfg st (k + 1)).backoff ≤ cfg.max_backoff ∧
    (fault cfg false (faultNth cfg st (k + 1))).2 =
      some ((faultNth cfg st (k + 1)).backoff) := by
  obtain ⟨ha, hsb, hc⟩ := faultNth_backoff cfg st h1 h2 h3 hc1 hc2 k
  have hstep0 := fault_connecting_step cfg st h1 h2
  have hmaxpos : 0 < cfg.max_backoff := lt_of_lt_of_le hc1 hc2
  have hppos : 0 < 2 ^ k * cfg.initial_backoff := by positivity
  have hnz : (faultNth cfg st (k + 1)).backoff ≠ 0 := by
    rw [hc]
    exact ne_of_gt (lt_min hppos hmaxpos)
  have hstep := fault_connecting_step cfg (faultNth cfg st (k + 1)) ha hsb
  refine ⟨by rw [hstep0.2.2.2, if_pos h3], ha, hc, ?_, ?_⟩
  · rw [hc]
    exact min_le_right _ _
  · rw [hstep.2.2.2, if_neg hnz]

theorem C6_backoff_doubling_witness :
    (stConn.state = PState.CONNECTING ∧ stConn.standby = false ∧ stConn.backoff = 0 ∧
      0 < cfgTest.initial_backoff ∧ cfgTest.initial_backoff ≤ cfgTest.max_backoff) ∧
    (faultNth cfgTest stConn 3).backoff =
      min (2 ^ 2 * cfgTest.initial_backoff) cfgTest.max_backoff :=
  ⟨⟨rfl, rfl, rfl, by decide, by decide⟩,
   (C6_backoff_doubling cfgTest stConn rfl rfl rfl (by decide)
     (by decide) 2).2.2.1⟩

end CephPipe
